import Mathlib

/-!
Verification development for the Drip on-demand lesson-generation subsystem.

The definitions below are a shallow embedding of the TypeScript source:
`server/routes.ts` (the variant registering `/api/courses/build`,
`/api/lessons/:id`, `/api/lessons/:id/complete` with research support),
`server/storage.ts` (`DatabaseStorage`), and `server/perplexity.ts`
(`conductDeepResearch`).  Pure computations (citation extraction, prompt
assembly, outline validation) are translated into Lean functions; the
stateful endpoints are explicit state transformers; the fire-and-forget
generation tasks are a small-step interleaving model.
-/

namespace Drip

/-! ## Generic helpers (JS string/array primitives used by the routes) -/

/-- JS `Array.prototype.join(sep)`. -/
def joinSep (sep : String) : List String → String
  | [] => ""
  | [s] => s
  | s :: rest => s ++ sep ++ joinSep sep rest

/-- JS `Array.prototype.slice(-n)`: the last `min n l.length` elements. -/
def takeLast {α : Type} (n : Nat) (l : List α) : List α :=
  l.drop (l.length - n)

/-- JS `String.prototype.trim()` on the character list of a string. -/
def trimChars (cs : List Char) : List Char :=
  ((cs.dropWhile Char.isWhitespace).reverse.dropWhile Char.isWhitespace).reverse

/-- First-occurrence deduplication, as a JS `Set` collects values. -/
def dedupFirstAux : List Nat → List Nat → List Nat
  | [], _ => []
  | a :: l, seen => if a ∈ seen then dedupFirstAux l seen else a :: dedupFirstAux l (a :: seen)

/-- JS `parseInt` on a string of decimal digits. -/
def digitsToNat (ds : List Char) : Nat :=
  ds.foldl (fun n c => n * 10 + (c.toNat - 48)) 0

theorem mem_dedupFirstAux (l : List Nat) (seen : List Nat) (m : Nat) :
    m ∈ dedupFirstAux l seen ↔ m ∈ l ∧ m ∉ seen := by
  induction l generalizing seen with
  | nil => simp [dedupFirstAux]
  | cons a l ih =>
    simp only [dedupFirstAux]
    by_cases ha : a ∈ seen
    · simp only [ha, if_true, ih]
      constructor
      · rintro ⟨hm, hns⟩
        exact ⟨List.mem_cons_of_mem _ hm, hns⟩
      · rintro ⟨hm, hns⟩
        rcases List.mem_cons.mp hm with rfl | hm
        · exact absurd ha hns
        · exact ⟨hm, hns⟩
    · simp only [ha, if_false, List.mem_cons, ih]
      by_cases hma : m = a
      · subst hma
        simp [ha]
      · simp [hma]

theorem nodup_dedupFirstAux (l : List Nat) (seen : List Nat) :
    (dedupFirstAux l seen).Nodup := by
  induction l generalizing seen with
  | nil => simp [dedupFirstAux]
  | cons a l ih =>
    simp only [dedupFirstAux]
    by_cases ha : a ∈ seen
    · simp only [ha, if_true]
      exact ih seen
    · simp only [ha, if_false, List.nodup_cons]
      refine ⟨fun h => ?_, ih (a :: seen)⟩
      have := (mem_dedupFirstAux _ _ _).mp h
      exact this.2 (List.mem_cons_self a seen)

/-! ## Sentinel values and the generation gate check

From the `GET /api/lessons/:id` handler: a lesson needs generation when its
content is the sentinel `"PENDING_GENERATION"` or the legacy placeholder
written by the superseded direct-generation endpoint. -/

def sentinelContent : String := "PENDING_GENERATION"

def legacyPlaceholder : String := "Content will be generated when you reach this lesson."

/-- The `needsGeneration` test from the lesson fetch handler; the same two-value test
is the re-check at the top of the background generation task. -/
def needsGeneration (content : String) : Bool :=
  content == sentinelContent || content == legacyPlaceholder

/-! ## Citation marker extraction (`content.matchAll(/\[(\d+)\]/g)`)

A single left-to-right scan: at `[`, a maximal digit run followed by `]` is
a match (the regex cannot backtrack into a shorter digit run because `]` is
not a digit); on failure the scan resumes after the opening bracket, which
the streaming form below realises by treating the offending character
itself as a fresh scan position. -/

def scanAux : List Char → Option (List Char) → List Nat
  | [], _ => []
  | c :: rest, none =>
    if c = '[' then scanAux rest (some []) else scanAux rest none
  | c :: rest, some ds =>
    if c.isDigit then scanAux rest (some (ds ++ [c]))
    else if c = ']' then
      if ds = [] then scanAux rest none
      else digitsToNat ds :: scanAux rest none
    else if c = '[' then scanAux rest (some [])
    else scanAux rest none

/-- All `[N]` markers of the text, in match order, with repetitions. -/
def extractMarkers (s : String) : List Nat :=
  scanAux s.data none

/-- The distinct marker values, first occurrence first (the JS `Set`
`usedCitations`). -/
def distinctMarkers (s : String) : List Nat :=
  dedupFirstAux (extractMarkers s) []

/-- The `Citation` shape from `server/perplexity.ts`. -/
structure Citation where
  id : Nat
  url : String
  domain : String
deriving Repr, DecidableEq

/-- The loop body over `citationNums`: `citations[citNum - 1]` is JS array
indexing, so marker `0` reads index `-1` (undefined) and is dropped, as is
any out-of-range marker. -/
def citationPairs (content : String) (citations : List Citation) : List (Nat × String) :=
  (distinctMarkers content).filterMap (fun m =>
    if m = 0 then none
    else (citations.get? (m - 1)).map (fun c => (m, c.url)))

/-- The `citationMap` value as left by the extraction block: `none` when no marker
occurs in the text (`usedCitations.size > 0` fails), otherwise the pairs. -/
def buildCitationMap (content : String) (citations : List Citation) : Option (List (Nat × String)) :=
  if distinctMarkers content = [] then none else some (citationPairs content citations)

/-- The `course_research` row as read by the routes (the stored JSON string of
citations is modelled parsed). -/
structure ResearchRec where
  id : Nat
  courseId : Nat
  status : String
  researchContent : String
  citations : List Citation
  confidenceScore : Option Nat
  errorMessage : Option String
  createdAt : Nat
deriving Repr, DecidableEq

/-- The lesson-generation task builds a citation map only when research is
present, completed, and has at least one citation (lines guarding the
extraction block in the `GET /api/lessons/:id` background task). -/
def citationMapLessonTask (research : Option ResearchRec) (content : String) :
    Option (List (Nat × String)) :=
  match research with
  | some r =>
    if r.status = "completed" then
      if r.citations.length > 0 then buildCitationMap content r.citations else none
    else none
  | none => none

example : extractMarkers "intro [1] then [2] and [1] again" = [1, 2, 1] := by decide
example : extractMarkers "[12] [x] [] [[3]" = [12, 3] := by decide
example : distinctMarkers "intro [1] then [2] and [1] again" = [1, 2] := by decide
example : extractMarkers "no markers" = [] := by decide
example : extractMarkers "[0] [007]" = [0, 7] := by decide

theorem mem_distinctMarkers (s : String) (m : Nat) :
    m ∈ distinctMarkers s ↔ m ∈ extractMarkers s := by
  simp [distinctMarkers, mem_dedupFirstAux]

theorem nodup_distinctMarkers (s : String) : (distinctMarkers s).Nodup :=
  nodup_dedupFirstAux _ _

theorem mem_citationPairs (content : String) (citations : List Citation) (m : Nat) (u : String) :
    (m, u) ∈ citationPairs content citations ↔
      m ∈ distinctMarkers content ∧ 1 ≤ m ∧
        ∃ c, citations.get? (m - 1) = some c ∧ u = c.url := by
  simp only [citationPairs, List.mem_filterMap]
  constructor
  · rintro ⟨a, ha, hf⟩
    by_cases h0 : a = 0
    · simp [h0] at hf
    · simp only [h0, if_false, Option.map_eq_some'] at hf
      obtain ⟨c, hc, heq⟩ := hf
      rw [Prod.mk.injEq] at heq
      obtain ⟨rfl, rfl⟩ := heq
      exact ⟨ha, Nat.one_le_iff_ne_zero.mpr h0, c, hc, rfl⟩
  · rintro ⟨hm, h1, c, hc, rfl⟩
    refine ⟨m, hm, ?_⟩
    have h0 : m ≠ 0 := Nat.one_le_iff_ne_zero.mp h1
    simp only [h0, if_false, Option.map_eq_some']
    exact ⟨c, hc, rfl⟩

theorem citationPairs_bounds (content : String) (citations : List Citation) (m : Nat) (u : String)
    (h : (m, u) ∈ citationPairs content citations) : 1 ≤ m ∧ m ≤ citations.length := by
  obtain ⟨-, h1, c, hc, -⟩ := (mem_citationPairs content citations m u).mp h
  have hlt : m - 1 < citations.length := (List.get?_eq_some.mp hc).1
  omega

theorem keys_sublist_of_filterMap {α β : Type} (f : α → Option (α × β)) (l : List α)
    (hf : ∀ a p, f a = some p → p.1 = a) :
    ((l.filterMap f).map Prod.fst).Sublist l := by
  induction l with
  | nil => simp
  | cons a l ih =>
    cases hfa : f a with
    | none =>
      simp only [List.filterMap_cons, hfa]
      exact ih.cons a
    | some p =>
      have hp := hf a p hfa
      simp only [List.filterMap_cons, hfa, List.map_cons, hp]
      exact ih.cons₂ a

theorem nodup_citationPairs_keys (content : String) (citations : List Citation) :
    ((citationPairs content citations).map Prod.fst).Nodup := by
  refine List.Nodup.sublist
    (keys_sublist_of_filterMap _ (distinctMarkers content) ?_) (nodup_distinctMarkers content)
  intro a p hp
  by_cases h0 : a = 0
  · simp [h0] at hp
  · simp only [h0, if_false, Option.map_eq_some'] at hp
    obtain ⟨c, -, heq⟩ := hp
    rw [← heq]

/-! ## Persisted records

Field layout follows `shared/schema.ts` together with the columns the
research-aware storage variant touches (`citationMap`, `confidenceScore`,
`completedAt`); stored JSON columns are modelled parsed. -/

structure LessonRec where
  id : Nat
  courseId : Nat
  sessionNumber : Int
  title : String
  subtitle : Option String
  content : String
  userFeedback : Option String
  citationMap : Option (List (Nat × String))
  estimatedMinutes : Int
  createdAt : Nat
deriving Repr, DecidableEq

structure CourseRec where
  id : Nat
  userId : String
  title : String
  description : Option String
  totalLessons : Option Int
  isCompleted : Bool
  isArchived : Bool
  createdAt : Nat
  updatedAt : Nat
deriving Repr, DecidableEq

structure FeedbackRec where
  id : Nat
  userId : String
  lessonId : Nat
  courseId : Nat
  feedback : String
  createdAt : Nat
deriving Repr, DecidableEq

/-! ## Prompt composition (background task of `GET /api/lessons/:id`) -/

/-- The window `allFeedback.slice(-3).map(f => f.feedback).join("\n- ")`. -/
def recentFeedbackStr (allFeedback : List FeedbackRec) : String :=
  joinSep "\n- " ((takeLast 3 allFeedback).map (fun f => f.feedback))

/-- The `feedbackContext` block: included only when the joined window is non-empty
(JS string truthiness). -/
def feedbackContext (allFeedback : List FeedbackRec) : String :=
  if recentFeedbackStr allFeedback = "" then ""
  else
    "\n\nThe learner has provided this feedback on previous lessons that you should incorporate:\n- "
      ++ recentFeedbackStr allFeedback

/-- The enumerated source list: `citations.map((c, i) => ...[i + 1]... c.url).join("\n")`. -/
def sourcesList (citations : List Citation) : String :=
  joinSep "\n" (citations.enum.map (fun p => "[" ++ toString (p.1 + 1) ++ "] " ++ p.2.url))

/-- The `researchContext` block: attached only when a research row exists with
`status === "completed"`. -/
def researchContextOf (research : Option ResearchRec) : String :=
  match research with
  | some r =>
    if r.status = "completed" then
      "\n\n## Research Context\n" ++ r.researchContent ++ "\n\n## Available Sources\n"
        ++ sourcesList r.citations
        ++ "\n\nWhen relevant, cite sources using [N] inline notation."
    else ""
  | none => ""

/-- Template interpolation `${course?.totalLessons}` renders a NULL column as the text `null`. -/
def showTotalLessons (course : CourseRec) : String :=
  match course.totalLessons with
  | some n => toString n
  | none => "null"

/-- The fixed tail of the generation prompt (reading level, formatting,
word count, Further Reading instructions). -/
def lessonPromptTail : String :=
  "\n\nWrite professional, well-researched educational content that:\n- Is written at a high school reading level (clear and accessible)\n- Uses clean markdown formatting with clear paragraphs\n- Includes real-world examples and practical applications\n- Is informative and professional in tone\n- Is approximately 500-700 words\n- Presents accurate, factual information\n\nAt the end of the lesson, include a \"Further Reading\" section with 2-3 credible references. Format like:\n**Further Reading**\n- [Title of resource] by Author/Organization - Brief description of what this covers\n- [Title of resource] by Author/Organization - Brief description\n\nUse real, well-known sources (books, academic institutions, reputable organizations, established publications). Do not invent fake sources.\n\nJust write the lesson content and further reading, no meta text or preamble."

/-- The full prompt handed to the text-generation provider by the lesson
generation task. -/
def composeLessonPrompt (lesson : LessonRec) (course : CourseRec)
    (allFeedback : List FeedbackRec) (research : Option ResearchRec) : String :=
  "Write a 5-minute educational lesson for: \"" ++ lesson.title
    ++ "\"\nThis is part of a course on: \"" ++ course.title
    ++ "\"\nSession " ++ toString lesson.sessionNumber ++ " of " ++ showTotalLessons course
    ++ "." ++ feedbackContext allFeedback ++ researchContextOf research
    ++ lessonPromptTail

/-- The persisted inputs the prompt may depend on, for the research side:
attached iff completed, and then only content and source URLs matter. -/
def researchView (research : Option ResearchRec) : Option (String × List String) :=
  match research with
  | some r =>
    if r.status = "completed" then some (r.researchContent, r.citations.map (fun c => c.url))
    else none
  | none => none

/-- The enumerated source block built from URLs alone. -/
def sourcesFromUrls (urls : List String) : String :=
  joinSep "\n" (urls.enum.map (fun p => "[" ++ toString (p.1 + 1) ++ "] " ++ p.2))

/-! ## Immediate lesson fetch response (`GET /api/lessons/:id`)

When the stored content is the sentinel or the legacy placeholder, the
handler responds at once with content overridden to `"PENDING_GENERATION"`
and `isGenerating: true`; otherwise the stored content is returned and no
`isGenerating` field is set (modelled as `false`). -/

structure LessonFetchView where
  content : String
  isGenerating : Bool
deriving Repr, DecidableEq

def lessonFetchView (lesson : LessonRec) : LessonFetchView :=
  if needsGeneration lesson.content then
    { content := sentinelContent, isGenerating := true }
  else
    { content := lesson.content, isGenerating := false }

/-! ## Outline validation and course build (`POST /api/courses/build`)

The request body is untyped JSON, and the handler's checks are JS
truthiness tests, so the outline fields are embedded as dynamic values.
Numbers are modelled as integers (the only numeric values the claims
need). -/

inductive JVal where
  | jnull
  | jundef
  | jbool (b : Bool)
  | jnum (n : Int)
  | jstr (s : String)
deriving Repr, DecidableEq

/-- JS truthiness of a value. -/
def JVal.truthy : JVal → Bool
  | .jnull => false
  | .jundef => false
  | .jbool b => b
  | .jnum n => n != 0
  | .jstr s => s != ""

structure RawSession where
  title : JVal
  subtitle : JVal
  sessionNumber : JVal
deriving Repr, DecidableEq

/-- The `sessions` field is `none` when it is not an array. -/
structure RawOutline where
  title : JVal
  description : JVal
  sessions : Option (List RawSession)
deriving Repr, DecidableEq

/-- Check `typeof outline.title !== 'string' || !outline.title.trim()`. -/
def validBuildTitle : JVal → Bool
  | .jstr s => trimChars s.data != []
  | _ => false

/-- Check `!outline.description || typeof outline.description !== 'string'`. -/
def validBuildDescription : JVal → Bool
  | .jstr s => s != ""
  | _ => false

/-- The per-session loop: rejects on `!session.title || !session.sessionNumber`. -/
def sessionOk (s : RawSession) : Bool :=
  s.title.truthy && s.sessionNumber.truthy

/-- The validation chain of `POST /api/courses/build`, in source order,
returning the sessions it will iterate over. -/
def validateOutline (o : RawOutline) : Except String (List RawSession) :=
  if !validBuildTitle o.title then .error "Valid outline with title is required"
  else if !validBuildDescription o.description then .error "Valid outline description is required"
  else
    match o.sessions with
    | none => .error "Outline must have 1-20 sessions"
    | some ss =>
      if ss.length < 1 || ss.length > 20 then .error "Outline must have 1-20 sessions"
      else if ss.all sessionOk then .ok ss
      else .error "Each session must have a title and sessionNumber"

structure BuiltCourse where
  title : JVal
  description : JVal
  totalLessons : Nat
  isCompleted : Bool
deriving Repr, DecidableEq

structure BuiltLesson where
  sessionNumber : JVal
  title : JVal
  subtitle : JVal
  content : String
  estimatedMinutes : Int
deriving Repr, DecidableEq

/-- The lesson creation loop: one `createLesson` per outline session, all
at sentinel content, session numbers copied verbatim. -/
def buildLessons (ss : List RawSession) : List BuiltLesson :=
  ss.map (fun s =>
    { sessionNumber := s.sessionNumber
      title := s.title
      subtitle := s.subtitle
      content := sentinelContent
      estimatedMinutes := 5 })

/-- The build endpoint up to its synchronous response: validation error
(4xx, nothing created) or the created course and lessons. -/
def buildCourseEndpoint (o : RawOutline) : Except String (BuiltCourse × List BuiltLesson) :=
  match validateOutline o with
  | .error e => .error e
  | .ok ss =>
    .ok ({ title := o.title, description := o.description,
           totalLessons := ss.length, isCompleted := false },
         buildLessons ss)

/-! ## Lesson progress (`markLessonComplete`, `POST /api/lessons/:id/complete`) -/

structure ProgressRow where
  id : Nat
  userId : String
  lessonId : Nat
  courseId : Nat
  isCompleted : Bool
  completedAt : Option Nat
deriving Repr, DecidableEq

/-- The progress table plus the serial-id counter. -/
structure ProgressStore where
  rows : List ProgressRow
  nextId : Nat
deriving Repr, DecidableEq

/-- Query `DatabaseStorage.getLessonProgress`: first row matching user and lesson. -/
def getLessonProgress (st : ProgressStore) (userId : String) (lessonId : Nat) :
    Option ProgressRow :=
  st.rows.find? (fun r => r.userId == userId && r.lessonId == lessonId)

/-- Upsert `DatabaseStorage.markLessonComplete`: update the existing row by id, or
insert a fresh completed row. -/
def markLessonComplete (st : ProgressStore) (userId : String) (lessonId courseId : Nat)
    (now : Nat) : ProgressStore :=
  match getLessonProgress st userId lessonId with
  | some existing =>
    { st with
      rows := st.rows.map (fun r =>
        if r.id = existing.id then { r with isCompleted := true, completedAt := some now }
        else r) }
  | none =>
    { rows := st.rows ++
        [{ id := st.nextId, userId := userId, lessonId := lessonId, courseId := courseId,
           isCompleted := true, completedAt := some now }]
      nextId := st.nextId + 1 }

/-- Count `DatabaseStorage.getCompletedLessonsCount`. -/
def getCompletedLessonsCount (st : ProgressStore) (userId : String) (courseId : Nat) : Nat :=
  (st.rows.filter (fun r => r.userId == userId && r.courseId == courseId && r.isCompleted)).length

/-- Fallback `course.totalLessons || 0`. -/
def totalLessonsOrZero (course : CourseRec) : Int :=
  match course.totalLessons with
  | some n => n
  | none => 0

/-- The core of `POST /api/lessons/:id/complete` after ownership checks:
upsert progress, count, and flip the course flag when the count reaches
the total. -/
def completeLessonEndpoint (st : ProgressStore) (course : CourseRec) (lesson : LessonRec)
    (userId : String) (now : Nat) : ProgressStore × CourseRec :=
  let st' := markLessonComplete st userId lesson.id lesson.courseId now
  let completedCount := getCompletedLessonsCount st' userId lesson.courseId
  if (completedCount : Int) ≥ totalLessonsOrZero course then
    (st', { course with isCompleted := true, updatedAt := now })
  else
    (st', course)

/-! ## The generation tasks as an interleaving model

A background generation task (the async closure of `GET /api/lessons/:id`,
and likewise the first-lesson pre-generation of `POST /api/courses/build`)
has exactly two steps that touch the shared lesson row:

* `pc = 0` — the gate check at the top of the task: read the lesson and
  finish without writing if the content is no longer pending; this check
  runs BEFORE the provider call;
* `pc = 1` — the unconditional `updateLesson` write of this task's provider
  result, performed after the provider call with no further check.

The provider call between the two steps has no effect on the store, so it
is represented by each task's predetermined result. -/

structure TaskCtl where
  pc : Nat
  wrote : Bool
deriving Repr, DecidableEq

structure GenState where
  content : String
  tasks : List TaskCtl
deriving Repr, DecidableEq

def initTasks (n : Nat) : List TaskCtl :=
  List.replicate n { pc := 0, wrote := false }

/-- One atomic step of task `i` against the shared lesson content. -/
def stepTask (results : List String) (s : GenState) (i : Nat) : GenState :=
  match s.tasks.get? i with
  | none => s
  | some t =>
    match t.pc with
    | 0 =>
      if needsGeneration s.content then
        { s with tasks := s.tasks.set i { pc := 1, wrote := false } }
      else
        { s with tasks := s.tasks.set i { pc := 2, wrote := false } }
    | 1 =>
      { content := results.getD i s.content,
        tasks := s.tasks.set i { pc := 2, wrote := true } }
    | _ => s

/-- Run a schedule (a sequence of task ids) from a lesson at sentinel
content, one task per provider result. -/
def runSchedule (results : List String) (sched : List Nat) : GenState :=
  sched.foldl (stepTask results) { content := sentinelContent, tasks := initTasks results.length }

/-- Every spawned task has finished. -/
def allDoneB (s : GenState) : Bool :=
  s.tasks.all (fun t => t.pc == 2)

/-- How many tasks committed a write to the lesson row. -/
def effectiveWrites (s : GenState) : Nat :=
  (s.tasks.filter (fun t => t.wrote)).length

/-! ## Provider failure paths (claim C6) -/

/-- The lesson generation task's effect on the lesson content: the whole
task body is wrapped in try/catch, so a provider error reaches no
`updateLesson` call. -/
def lessonGenTaskWrite (current : String) (provider : Except String String) : Option String :=
  if needsGeneration current then
    match provider with
    | .ok text => some text
    | .error _ => none
  else none

def lessonContentAfterTask (current : String) (provider : Except String String) : String :=
  match lessonGenTaskWrite current provider with
  | some c => c
  | none => current

/-- Outcomes of the `conductDeepResearch` HTTP call in `server/perplexity.ts`. -/
inductive ResearchCallOutcome where
  | success (content : String) (citationUrls : List String)
  | httpError (status : Nat) (body : String)
  | timeout
deriving Repr, DecidableEq

/-- How `conductDeepResearch` maps a non-ok response and the 5-minute abort to
thrown errors with these messages, and otherwise returns the document. -/
def conductDeepResearchResult : ResearchCallOutcome → Except String (String × List String)
  | .success c urls => .ok (c, urls)
  | .httpError status body => .error ("Perplexity API returned " ++ toString status ++ ": " ++ body)
  | .timeout => .error "Deep research request timed out after 5 minutes"

/-- The research background task's catch block updates the existing
research row to `status: "failed"` with the error message; on success the
row becomes `completed` with the document.  `domainOf` stands for
`extractDomain` (URL hostname parsing) and `score` for the float-valued
`calculateConfidenceScore`, neither of which the claims inspect. -/
def runResearchUpdate (r : ResearchRec) (outcome : ResearchCallOutcome)
    (domainOf : String → String) (score : Nat) : ResearchRec :=
  match conductDeepResearchResult outcome with
  | .ok (content, urls) =>
    { r with status := "completed", researchContent := content,
             citations := urls.enum.map (fun p =>
               { id := p.1 + 1, url := p.2, domain := domainOf p.2 }),
             confidenceScore := some score }
  | .error msg =>
    { r with status := "failed", errorMessage := some msg }

/-- Guard `research && research.status === "completed"` as a Bool. -/
def researchCompletedB : Option ResearchRec → Bool
  | some r => r.status == "completed"
  | none => false

/-! ## Claim theorems -/

/-- Claim C3: for all generated text and a source array of length `k`, the
reconciler maps exactly the distinct bracketed markers `m` whose index
`m - 1` is valid, sending `m` to the url of source `m - 1`; every mapped
marker satisfies `1 ≤ m ≤ k`, markers with out-of-range indices are
dropped, and each marker occurs at most once. -/
theorem citation_reconciler_correct (content : String) (citations : List Citation) :
    (∀ m u, (m, u) ∈ citationPairs content citations ↔
      (m ∈ distinctMarkers content ∧ 1 ≤ m ∧
        ∃ c, citations.get? (m - 1) = some c ∧ u = c.url))
    ∧ (∀ m u, (m, u) ∈ citationPairs content citations → 1 ≤ m ∧ m ≤ citations.length)
    ∧ ((citationPairs content citations).map Prod.fst).Nodup :=
  ⟨mem_citationPairs content citations, citationPairs_bounds content citations,
    nodup_citationPairs_keys content citations⟩

theorem citation_reconciler_correct_witness :
    (2, "https://b.example") ∈ citationPairs "see [2] and [9]"
      [⟨1, "https://a.example", "a.example"⟩, ⟨2, "https://b.example", "b.example"⟩] :=
  ((citation_reconciler_correct "see [2] and [9]"
      [⟨1, "https://a.example", "a.example"⟩, ⟨2, "https://b.example", "b.example"⟩]).1
    2 "https://b.example").mpr
    ⟨by decide, by decide, ⟨2, "https://b.example", "b.example"⟩, by decide, rfl⟩

/-- Claim C7: when the generated text holds no bracketed numeric marker, or
the course's research is unavailable (no row, or status not `completed`),
the persisted citation map is absent (`none`), never an empty map. -/
theorem citation_map_absent (content : String) (research : Option ResearchRec)
    (h : distinctMarkers content = [] ∨ researchCompletedB research = false) :
    citationMapLessonTask research content = none := by
  match research with
  | none => rfl
  | some r =>
    simp only [citationMapLessonTask]
    rcases h with h | h
    · by_cases hs : r.status = "completed"
      · simp [hs, buildCitationMap, h]
      · simp [hs]
    · have hs : r.status ≠ "completed" := by
        simpa [researchCompletedB] using h
      simp [hs]

theorem citation_map_absent_witness :
    citationMapLessonTask none "markerless text" = none :=
  citation_map_absent "markerless text" none (Or.inr rfl)

/-- Claim C9: both the sentinel `"PENDING_GENERATION"` and the legacy
placeholder are treated as ungenerated by the lesson fetch endpoint, and
in both cases the immediate response carries content normalized to the
sentinel with `isGenerating` true. -/
theorem pending_lesson_fetch_normalized (lesson : LessonRec)
    (h : lesson.content = "PENDING_GENERATION" ∨
         lesson.content = "Content will be generated when you reach this lesson.") :
    needsGeneration lesson.content = true ∧
    lessonFetchView lesson = { content := "PENDING_GENERATION", isGenerating := true } := by
  have hng : needsGeneration lesson.content = true := by
    rcases h with h | h <;> simp [needsGeneration, h, sentinelContent, legacyPlaceholder]
  refine ⟨hng, ?_⟩
  simp [lessonFetchView, hng, sentinelContent]

theorem pending_lesson_fetch_normalized_witness :
    lessonFetchView
      { id := 7, courseId := 1, sessionNumber := 2, title := "Common Species",
        subtitle := none,
        content := "Content will be generated when you reach this lesson.",
        userFeedback := none, citationMap := none, estimatedMinutes := 5, createdAt := 0 } =
      { content := "PENDING_GENERATION", isGenerating := true } :=
  (pending_lesson_fetch_normalized
      { id := 7, courseId := 1, sessionNumber := 2, title := "Common Species",
        subtitle := none,
        content := "Content will be generated when you reach this lesson.",
        userFeedback := none, citationMap := none, estimatedMinutes := 5, createdAt := 0 }
      (Or.inr rfl)).2

/-- Claim C6: a failed text-generation call leaves the lesson content at
the sentinel (the catch block reaches no write), so the next fetch still
reports it as generating and re-triggers generation; a failed or timed-out
deep-research call leaves the research row at `status: "failed"` with the
error message recorded. -/
theorem provider_failure_semantics (e : String) (r : ResearchRec) (status : Nat)
    (body : String) (domainOf : String → String) (score : Nat) (lesson : LessonRec) :
    lessonContentAfterTask sentinelContent (.error e) = sentinelContent ∧
    lessonFetchView { lesson with content := sentinelContent } =
      { content := sentinelContent, isGenerating := true } ∧
    (runResearchUpdate r (.httpError status body) domainOf score).status = "failed" ∧
    (runResearchUpdate r (.httpError status body) domainOf score).errorMessage =
      some ("Perplexity API returned " ++ toString status ++ ": " ++ body) ∧
    (runResearchUpdate r .timeout domainOf score).status = "failed" ∧
    (runResearchUpdate r .timeout domainOf score).errorMessage =
      some "Deep research request timed out after 5 minutes" := by
  refine ⟨rfl, ?_, rfl, rfl, rfl, rfl⟩
  simp [lessonFetchView, needsGeneration, sentinelContent]

/-! ### Prompt composer lemmas -/

theorem takeLast_map {α β : Type} (f : α → β) (n : Nat) (l : List α) :
    takeLast n (l.map f) = (takeLast n l).map f := by
  simp [takeLast, List.map_drop, List.length_map]

theorem takeLast_of_length_le {α : Type} (n : Nat) (l : List α) (h : l.length ≤ n) :
    takeLast n l = l := by
  simp [takeLast, Nat.sub_eq_zero_of_le h]

theorem recentFeedbackStr_map (allFeedback : List FeedbackRec) :
    recentFeedbackStr allFeedback =
      joinSep "\n- " (takeLast 3 (allFeedback.map (fun f => f.feedback))) := by
  rw [recentFeedbackStr, takeLast_map]

theorem feedbackContext_map (fb1 fb2 : List FeedbackRec)
    (h : fb1.map (fun f => f.feedback) = fb2.map (fun f => f.feedback)) :
    feedbackContext fb1 = feedbackContext fb2 := by
  have hr : recentFeedbackStr fb1 = recentFeedbackStr fb2 := by
    rw [recentFeedbackStr_map, recentFeedbackStr_map, h]
  simp only [feedbackContext, hr]

theorem sourcesList_urls (citations : List Citation) :
    sourcesList citations = sourcesFromUrls (citations.map (fun c => c.url)) := by
  simp [sourcesList, sourcesFromUrls, List.enum_map, List.map_map]
  rfl

theorem researchContextOf_view (research : Option ResearchRec) :
    researchContextOf research =
      (match researchView research with
       | some cu =>
         "\n\n## Research Context\n" ++ cu.1 ++ "\n\n## Available Sources\n"
           ++ sourcesFromUrls cu.2
           ++ "\n\nWhen relevant, cite sources using [N] inline notation."
       | none => "") := by
  cases research with
  | none => rfl
  | some r =>
    by_cases h : r.status = "completed" <;>
      simp [researchContextOf, researchView, h, sourcesList_urls]

/-- Claim C8: prompt composition is deterministic, a pure function of the
persisted inputs named by the specification — lesson title and session
number, course title and total lessons, the feedback texts in stored
order, and the completed-research content and source URLs.  Runs over
states that agree on those inputs produce the identical prompt text, so no
timestamp or other ambient data enters the prompt body. -/
theorem prompt_composition_deterministic
    (l1 l2 : LessonRec) (c1 c2 : CourseRec) (fb1 fb2 : List FeedbackRec)
    (r1 r2 : Option ResearchRec)
    (hlt : l1.title = l2.title) (hsn : l1.sessionNumber = l2.sessionNumber)
    (hct : c1.title = c2.title) (htl : c1.totalLessons = c2.totalLessons)
    (hfb : fb1.map (fun f => f.feedback) = fb2.map (fun f => f.feedback))
    (hrv : researchView r1 = researchView r2) :
    composeLessonPrompt l1 c1 fb1 r1 = composeLessonPrompt l2 c2 fb2 r2 := by
  unfold composeLessonPrompt showTotalLessons
  rw [hlt, hsn, hct, htl, feedbackContext_map fb1 fb2 hfb,
    researchContextOf_view, researchContextOf_view, hrv]

theorem prompt_composition_deterministic_witness :
    composeLessonPrompt
      { id := 1, courseId := 1, sessionNumber := 2, title := "Common Species",
        subtitle := none, content := "PENDING_GENERATION", userFeedback := none,
        citationMap := none, estimatedMinutes := 5, createdAt := 11 }
      { id := 1, userId := "u", title := "Bird Watching Basics", description := none,
        totalLessons := some 2, isCompleted := false, isArchived := false,
        createdAt := 11, updatedAt := 11 }
      [{ id := 1, userId := "u", lessonId := 1, courseId := 1, feedback := "shorter",
         createdAt := 12 }]
      none
    = composeLessonPrompt
      { id := 9, courseId := 4, sessionNumber := 2, title := "Common Species",
        subtitle := some "hook", content := "done", userFeedback := some "x",
        citationMap := none, estimatedMinutes := 7, createdAt := 99 }
      { id := 4, userId := "v", title := "Bird Watching Basics", description := some "d",
        totalLessons := some 2, isCompleted := true, isArchived := true,
        createdAt := 98, updatedAt := 97 }
      [{ id := 6, userId := "v", lessonId := 9, courseId := 4, feedback := "shorter",
         createdAt := 96 }]
      (some { id := 3, courseId := 4, status := "pending", researchContent := "doc",
              citations := [], confidenceScore := none, errorMessage := none,
              createdAt := 95 }) :=
  prompt_composition_deterministic _ _ _ _ _ _ _ _ rfl rfl rfl rfl rfl rfl

/-- Claim C5: with five or more stored feedback entries (chronological,
oldest first, as `getFeedbackByCourse` orders them), the composed prompt
depends only on the three most recent entries — which the ordering
hypothesis shows are the latest ones — rendered oldest first as a bulleted
block; with an empty log no feedback block is produced. -/
theorem feedback_window (lesson : LessonRec) (course : CourseRec)
    (research : Option ResearchRec) (fb : List FeedbackRec)
    (h5 : 5 ≤ fb.length)
    (hchron : fb.Pairwise (fun a b => a.createdAt ≤ b.createdAt)) :
    composeLessonPrompt lesson course fb research =
      composeLessonPrompt lesson course (takeLast 3 fb) research
    ∧ (takeLast 3 fb).length = 3
    ∧ (∀ f ∈ fb.take (fb.length - 3), ∀ g ∈ takeLast 3 fb, f.createdAt ≤ g.createdAt)
    ∧ feedbackContext fb =
        "\n\nThe learner has provided this feedback on previous lessons that you should incorporate:\n- "
          ++ joinSep "\n- " ((takeLast 3 fb).map (fun f => f.feedback))
    ∧ feedbackContext [] = "" := by
  have hlen : (takeLast 3 fb).length = 3 := by
    simp only [takeLast, List.length_drop]
    omega
  have htt : takeLast 3 (takeLast 3 fb) = takeLast 3 fb :=
    takeLast_of_length_le 3 (takeLast 3 fb) (le_of_eq hlen)
  have hsame : recentFeedbackStr (takeLast 3 fb) = recentFeedbackStr fb := by
    rw [recentFeedbackStr, htt, recentFeedbackStr]
  have hne : recentFeedbackStr fb ≠ "" := by
    obtain ⟨a, b, c, habc⟩ := List.length_eq_three.mp
      (by rw [List.length_map, hlen] : ((takeLast 3 fb).map (fun f => f.feedback)).length = 3)
    rw [← hsame, recentFeedbackStr, htt, habc]
    intro hcon
    have h0 : (joinSep "\n- " [a, b, c]).length = 0 := by rw [hcon]; rfl
    simp [joinSep, String.length_append] at h0
    exact absurd h0.1.2 (by decide)
  refine ⟨?_, hlen, ?_, ?_, rfl⟩
  · unfold composeLessonPrompt
    have : feedbackContext fb = feedbackContext (takeLast 3 fb) := by
      simp only [feedbackContext, hsame]
    rw [this]
  · intro f hf g hg
    have hsplit := hchron
    rw [← List.take_append_drop (fb.length - 3) fb] at hsplit
    exact (List.pairwise_append.mp hsplit).2.2 f hf g hg
  · rw [feedbackContext, if_neg hne, recentFeedbackStr]

theorem feedback_window_witness :
    feedbackContext
      [{ id := 1, userId := "u", lessonId := 1, courseId := 1, feedback := "f1", createdAt := 1 },
       { id := 2, userId := "u", lessonId := 1, courseId := 1, feedback := "f2", createdAt := 2 },
       { id := 3, userId := "u", lessonId := 2, courseId := 1, feedback := "f3", createdAt := 3 },
       { id := 4, userId := "u", lessonId := 2, courseId := 1, feedback := "f4", createdAt := 4 },
       { id := 5, userId := "u", lessonId := 3, courseId := 1, feedback := "f5", createdAt := 5 }] =
      "\n\nThe learner has provided this feedback on previous lessons that you should incorporate:\n- "
        ++ joinSep "\n- " ((takeLast 3
          ([{ id := 1, userId := "u", lessonId := 1, courseId := 1, feedback := "f1", createdAt := 1 },
           { id := 2, userId := "u", lessonId := 1, courseId := 1, feedback := "f2", createdAt := 2 },
           { id := 3, userId := "u", lessonId := 2, courseId := 1, feedback := "f3", createdAt := 3 },
           { id := 4, userId := "u", lessonId := 2, courseId := 1, feedback := "f4", createdAt := 4 },
           { id := 5, userId := "u", lessonId := 3, courseId := 1, feedback := "f5", createdAt := 5 }]
            : List FeedbackRec)).map
          (fun f => f.feedback)) :=
  (feedback_window
    { id := 1, courseId := 1, sessionNumber := 1, title := "t", subtitle := none,
      content := "PENDING_GENERATION", userFeedback := none, citationMap := none,
      estimatedMinutes := 5, createdAt := 0 }
    { id := 1, userId := "u", title := "c", description := none, totalLessons := some 5,
      isCompleted := false, isArchived := false, createdAt := 0, updatedAt := 0 }
    none
    [{ id := 1, userId := "u", lessonId := 1, courseId := 1, feedback := "f1", createdAt := 1 },
     { id := 2, userId := "u", lessonId := 1, courseId := 1, feedback := "f2", createdAt := 2 },
     { id := 3, userId := "u", lessonId := 2, courseId := 1, feedback := "f3", createdAt := 3 },
     { id := 4, userId := "u", lessonId := 2, courseId := 1, feedback := "f4", createdAt := 4 },
     { id := 5, userId := "u", lessonId := 3, courseId := 1, feedback := "f5", createdAt := 5 }]
    (by decide) (by decide)).2.2.2.1

/-! ### Outline validation: code-level and spec-level acceptance -/

theorem validBuildTitle_iff (v : JVal) :
    validBuildTitle v = true ↔ ∃ s, v = .jstr s ∧ trimChars s.data ≠ [] := by
  cases v <;> simp [validBuildTitle]

theorem validBuildDescription_iff (v : JVal) :
    validBuildDescription v = true ↔ ∃ s, v = .jstr s ∧ s ≠ "" := by
  cases v <;> simp [validBuildDescription]

theorem all_sessionOk_iff (ss : List RawSession) :
    ss.all sessionOk = true ↔
      ∀ sess ∈ ss, sess.title.truthy = true ∧ sess.sessionNumber.truthy = true := by
  simp [List.all_eq_true, sessionOk, Bool.and_eq_true]

theorem validateOutline_ok_iff (o : RawOutline) (ss : List RawSession) :
    validateOutline o = .ok ss ↔
      (validBuildTitle o.title = true ∧ validBuildDescription o.description = true ∧
       o.sessions = some ss ∧ 1 ≤ ss.length ∧ ss.length ≤ 20 ∧ ss.all sessionOk = true) := by
  unfold validateOutline
  cases h1 : validBuildTitle o.title with
  | false => simp
  | true =>
    cases h2 : validBuildDescription o.description with
    | false => simp
    | true =>
      simp only [Bool.not_true, Bool.false_eq_true, if_false, true_and]
      cases hs : o.sessions with
      | none => simp
      | some ss' =>
        dsimp only
        by_cases hlen : ss'.length < 1 || ss'.length > 20
        · rw [if_pos hlen]
          simp only [Bool.or_eq_true, decide_eq_true_eq] at hlen
          constructor
          · intro hcon
            cases hcon
          · rintro ⟨hss, hb1, hb2, -⟩
            obtain rfl : ss' = ss := Option.some.inj hss
            omega
        · rw [if_neg hlen]
          simp only [Bool.or_eq_true, decide_eq_true_eq, not_or, not_lt] at hlen
          by_cases hall : ss'.all sessionOk
          · rw [if_pos hall]
            constructor
            · intro hok
              obtain rfl : ss' = ss := Except.ok.inj hok
              refine ⟨rfl, by omega, by omega, hall⟩
            · rintro ⟨hss, -, -, -⟩
              obtain rfl : ss' = ss := Option.some.inj hss
              rfl
          · rw [if_neg hall]
            constructor
            · intro hcon
              cases hcon
            · rintro ⟨hss, -, -, hallss⟩
              obtain rfl : ss' = ss := Option.some.inj hss
              exact absurd hallss hall

theorem validateOutline_error_msgs (o : RawOutline) (e : String)
    (h : validateOutline o = .error e) :
    e = "Valid outline with title is required" ∨
    e = "Valid outline description is required" ∨
    e = "Outline must have 1-20 sessions" ∨
    e = "Each session must have a title and sessionNumber" := by
  unfold validateOutline at h
  split at h
  · exact Or.inl (Except.error.inj h).symm
  · split at h
    · exact Or.inr (Or.inl (Except.error.inj h).symm)
    · split at h
      · exact Or.inr (Or.inr (Or.inl (Except.error.inj h).symm))
      · split at h
        · exact Or.inr (Or.inr (Or.inl (Except.error.inj h).symm))
        · split at h
          · cases h
          · exact Or.inr (Or.inr (Or.inr (Except.error.inj h).symm))

/-- The acceptance condition the build endpoint actually implements: JS
truthiness checks, so positivity and integrality of `sessionNumber` are
not enforced. -/
def codeOutlineAcceptable (o : RawOutline) : Prop :=
  (∃ s, o.title = .jstr s ∧ trimChars s.data ≠ []) ∧
  (∃ s, o.description = .jstr s ∧ s ≠ "") ∧
  (∃ ss, o.sessions = some ss ∧ 1 ≤ ss.length ∧ ss.length ≤ 20 ∧
    ∀ sess ∈ ss, sess.title.truthy = true ∧ sess.sessionNumber.truthy = true)

/-- The acceptance condition as claim C4 words it: non-empty title, a
string description, 1-20 sessions, and for each session a non-empty title
and a positive integer sessionNumber. -/
def specOutlineAcceptable (o : RawOutline) : Prop :=
  (∃ s, o.title = .jstr s ∧ s ≠ "") ∧
  (∃ s, o.description = .jstr s) ∧
  (∃ ss, o.sessions = some ss ∧ 1 ≤ ss.length ∧ ss.length ≤ 20 ∧
    ∀ sess ∈ ss, (∃ t, sess.title = .jstr t ∧ t ≠ "") ∧
      (∃ n : Int, sess.sessionNumber = .jnum n ∧ 0 < n))

/-- An outline that is accepted by the endpoint although one session's
sessionNumber is the negative integer -1 (truthy in JS). -/
def negSessionOutline : RawOutline :=
  { title := .jstr "Bird Watching Basics"
    description := .jstr "Spot and identify birds"
    sessions := some
      [{ title := .jstr "Getting Started", subtitle := .jnull, sessionNumber := .jnum (-1) }] }

/-- Claim C4 counterexample: the build endpoint accepts an outline whose
only session has sessionNumber -1, although the claim requires rejection
whenever a session lacks a positive integer sessionNumber. -/
theorem outline_validation_counterexample :
    (buildCourseEndpoint negSessionOutline).isOk = true ∧
    ¬ specOutlineAcceptable negSessionOutline := by
  refine ⟨by decide, ?_⟩
  rintro ⟨-, -, ss, hss, -, -, hall⟩
  obtain rfl :
      [({ title := .jstr "Getting Started", subtitle := .jnull,
          sessionNumber := .jnum (-1) } : RawSession)] = ss :=
    Option.some.inj hss
  obtain ⟨-, n, hn, hpos⟩ := hall _ (List.mem_singleton_self _)
  obtain rfl : (-1 : Int) = n := JVal.jnum.inj hn
  omega

/-- Claim C4 amended: the endpoint accepts exactly the outlines with a
string title of non-empty trim, a non-empty string description, 1-20
sessions, and a truthy title and truthy sessionNumber per session (JS
truthiness: negative or non-integer session numbers and non-string truthy
titles pass); every rejection is one of the four validation errors, and a
rejected outline creates no course and no lessons. -/
theorem outline_validation_amended (o : RawOutline) :
    ((buildCourseEndpoint o).isOk = true ↔ codeOutlineAcceptable o) ∧
    (∀ e, buildCourseEndpoint o = .error e →
      e = "Valid outline with title is required" ∨
      e = "Valid outline description is required" ∨
      e = "Outline must have 1-20 sessions" ∨
      e = "Each session must have a title and sessionNumber") := by
  constructor
  · constructor
    · intro hok
      unfold buildCourseEndpoint at hok
      cases hv : validateOutline o with
      | error e =>
        rw [hv] at hok
        simp [Except.isOk, Except.toBool] at hok
      | ok ss =>
        obtain ⟨ht, hd, hs, hb1, hb2, hall⟩ := (validateOutline_ok_iff o ss).mp hv
        exact ⟨(validBuildTitle_iff _).mp ht, (validBuildDescription_iff _).mp hd,
          ss, hs, hb1, hb2, (all_sessionOk_iff ss).mp hall⟩
    · intro hacc
      obtain ⟨hte, hde, ss, hs, hb1, hb2, hall⟩ := hacc
      have hok : validateOutline o = .ok ss := (validateOutline_ok_iff o ss).mpr
        ⟨(validBuildTitle_iff _).mpr hte, (validBuildDescription_iff _).mpr hde,
          hs, hb1, hb2, (all_sessionOk_iff ss).mpr hall⟩
      unfold buildCourseEndpoint
      rw [hok]
      rfl
  · intro e he
    unfold buildCourseEndpoint at he
    cases hv : validateOutline o with
    | ok ss =>
      rw [hv] at he
      cases he
    | error eo =>
      rw [hv] at he
      obtain rfl : eo = e := Except.error.inj he
      exact validateOutline_error_msgs o eo hv

theorem outline_validation_amended_witness :
    (buildCourseEndpoint negSessionOutline).isOk = true :=
  (outline_validation_amended negSessionOutline).1.mpr
    ⟨⟨"Bird Watching Basics", rfl, by decide⟩,
     ⟨"Spot and identify birds", rfl, by decide⟩,
     [{ title := .jstr "Getting Started", subtitle := .jnull, sessionNumber := .jnum (-1) }],
     rfl, by decide, by decide,
     by
      intro sess hsess
      obtain rfl :
          ({ title := .jstr "Getting Started", subtitle := .jnull,
             sessionNumber := .jnum (-1) } : RawSession) = sess :=
        List.mem_singleton.mp hsess |>.symm
      exact ⟨by decide, by decide⟩⟩

/-- The session numbers of the lessons the build endpoint creates, when it
accepts. -/
def builtSessionNumbers (o : RawOutline) : Option (List JVal) :=
  match buildCourseEndpoint o with
  | .ok (_, lessons) => some (lessons.map (fun l => l.sessionNumber))
  | .error _ => none

/-- An accepted outline with one session numbered 2. -/
def skewedOutline : RawOutline :=
  { title := .jstr "T"
    description := .jstr "D"
    sessions := some [{ title := .jstr "A", subtitle := .jnull, sessionNumber := .jnum 2 }] }

/-- Claim C2 counterexample: the endpoint accepts an outline with N = 1
session numbered 2 and creates a lesson numbered 2, so the created session
numbers are not the claimed contiguous set 1..N = range 1. -/
theorem session_contiguity_counterexample :
    (buildCourseEndpoint skewedOutline).isOk = true ∧
    builtSessionNumbers skewedOutline = some [JVal.jnum 2] ∧
    builtSessionNumbers skewedOutline ≠
      some ((List.range 1).map (fun i => JVal.jnum ((i : Int) + 1))) := by
  refine ⟨by decide, by decide, by decide⟩

/-- Claim C2 amended: the lessons created for an accepted outline carry
the outline's session numbers verbatim and in order — contiguity is not
enforced, so the numbers are 1..N exactly when the outline's already are;
the lesson count and totalLessons equal the session count, and every
created lesson starts at the sentinel content. -/
theorem build_session_numbers_amended (o : RawOutline) (c : BuiltCourse)
    (lessons : List BuiltLesson) (h : buildCourseEndpoint o = .ok (c, lessons)) :
    ∃ ss, o.sessions = some ss ∧
      lessons.map (fun l => l.sessionNumber) = ss.map (fun s => s.sessionNumber) ∧
      lessons.length = ss.length ∧ c.totalLessons = ss.length ∧
      1 ≤ ss.length ∧ ss.length ≤ 20 ∧
      ∀ l ∈ lessons, l.content = sentinelContent := by
  unfold buildCourseEndpoint at h
  cases hv : validateOutline o with
  | error e =>
    rw [hv] at h
    cases h
  | ok ss =>
    rw [hv] at h
    have hp := Except.ok.inj h
    rw [Prod.mk.injEq] at hp
    obtain ⟨hc, hl⟩ := hp
    subst hl
    obtain ⟨ht, hd, hs, hb1, hb2, hall⟩ := (validateOutline_ok_iff o ss).mp hv
    refine ⟨ss, hs, ?_, ?_, ?_, hb1, hb2, ?_⟩
    · simp [buildLessons, List.map_map]
    · simp [buildLessons]
    · rw [← hc]
    · intro l hl
      simp only [buildLessons, List.mem_map] at hl
      obtain ⟨s, -, rfl⟩ := hl
      rfl

def twoSessionList : List RawSession :=
  [{ title := .jstr "Getting Started", subtitle := .jstr "hook", sessionNumber := .jnum 1 },
   { title := .jstr "Common Species", subtitle := .jnull, sessionNumber := .jnum 2 }]

def twoSessionOutline : RawOutline :=
  { title := .jstr "Bird Watching Basics"
    description := .jstr "A short course"
    sessions := some twoSessionList }

theorem build_session_numbers_amended_witness :
    (buildLessons twoSessionList).map (fun l => l.sessionNumber) =
      [JVal.jnum 1, JVal.jnum 2] :=
  (build_session_numbers_amended twoSessionOutline
      { title := .jstr "Bird Watching Basics", description := .jstr "A short course",
        totalLessons := 2, isCompleted := false }
      (buildLessons twoSessionList) rfl).elim
    (fun ss hss => by
      obtain rfl : twoSessionList = ss := Option.some.inj hss.1
      exact hss.2.1.trans (by decide))

/-! ### Lesson completion -/

theorem eq_singleton_of_nodup {α : Type} (l : List α) (a : α) (hn : l.Nodup)
    (hall : ∀ x ∈ l, x = a) (ha : a ∈ l) : l = [a] := by
  cases l with
  | nil => exact absurd ha (List.not_mem_nil a)
  | cons b t =>
    obtain rfl : b = a := hall b (List.mem_cons_self b t)
    cases t with
    | nil => rfl
    | cons c t2 =>
      obtain rfl : c = b := hall c (by simp)
      rw [List.nodup_cons] at hn
      exact absurd (List.mem_cons_self c t2) hn.1

theorem markLessonComplete_spec (st : ProgressStore) (userId : String)
    (lessonId courseId : Nat) (now : Nat)
    (hids : (st.rows.map (fun r => r.id)).Nodup)
    (hpair : ∀ r1 ∈ st.rows, ∀ r2 ∈ st.rows,
      r1.userId = r2.userId → r1.lessonId = r2.lessonId → r1 = r2) :
    (((markLessonComplete st userId lessonId courseId now).rows.filter
        (fun r => r.userId == userId && r.lessonId == lessonId)).length = 1)
    ∧ (∀ r ∈ (markLessonComplete st userId lessonId courseId now).rows,
        r.userId = userId → r.lessonId = lessonId → r.isCompleted = true)
    ∧ (∀ u l, u ≠ userId ∨ l ≠ lessonId →
        (markLessonComplete st userId lessonId courseId now).rows.filter
            (fun r => r.userId == u && r.lessonId == l)
          = st.rows.filter (fun r => r.userId == u && r.lessonId == l)) := by
  unfold markLessonComplete
  cases hfind : getLessonProgress st userId lessonId with
  | none =>
    have hfind2 : st.rows.find? (fun r => r.userId == userId && r.lessonId == lessonId)
        = none := hfind
    have hnone : ∀ r ∈ st.rows, ¬(r.userId == userId && r.lessonId == lessonId) = true :=
      fun r hr => List.find?_eq_none.mp hfind2 r hr
    dsimp only
    refine ⟨?_, ?_, ?_⟩
    · rw [List.filter_append, List.filter_eq_nil_iff.mpr hnone]
      simp
    · intro r hr hu hl
      rcases List.mem_append.mp hr with hr | hr
      · exact absurd (by simp [hu, hl]) (hnone r hr)
      · obtain rfl := List.mem_singleton.mp hr
        rfl
    · intro u l hul
      rw [List.filter_append]
      have hcond : ¬((userId == u && lessonId == l) = true) := by
        simp only [Bool.and_eq_true, beq_iff_eq]
        rintro ⟨rfl, rfl⟩
        rcases hul with h | h <;> exact h rfl
      have hc : (userId == u && lessonId == l) = false := Bool.eq_false_iff.mpr hcond
      have hq : (List.filter (fun r => r.userId == u && r.lessonId == l)
          [({ id := st.nextId, userId := userId, lessonId := lessonId, courseId := courseId,
              isCompleted := true, completedAt := some now } : ProgressRow)]) = [] := by
        simp only [List.filter, hc]
      rw [hq, List.append_nil]
  | some ex =>
    have hfind2 : st.rows.find? (fun r => r.userId == userId && r.lessonId == lessonId)
        = some ex := hfind
    have hmem : ex ∈ st.rows := List.mem_of_find?_eq_some hfind2
    have hP := List.find?_some hfind2
    simp only [Bool.and_eq_true, beq_iff_eq] at hP
    dsimp only
    have hinj := List.inj_on_of_nodup_map hids
    have hrows_nd : st.rows.Nodup := hids.of_map
    have hpres : ∀ r : ProgressRow,
        ((if r.id = ex.id then { r with isCompleted := true, completedAt := some now }
          else r).userId = r.userId ∧
         (if r.id = ex.id then { r with isCompleted := true, completedAt := some now }
          else r).lessonId = r.lessonId) := by
      intro r
      by_cases h : r.id = ex.id <;> simp [h]
    have hfilter : ∀ (u : String) (l : Nat),
        (st.rows.map (fun r =>
            if r.id = ex.id then { r with isCompleted := true, completedAt := some now }
            else r)).filter (fun r => r.userId == u && r.lessonId == l)
          = (st.rows.filter (fun r => r.userId == u && r.lessonId == l)).map (fun r =>
              if r.id = ex.id then { r with isCompleted := true, completedAt := some now }
              else r) := by
      intro u l
      rw [List.filter_map]
      congr 1
      apply List.filter_congr
      intro r _
      simp only [Function.comp_apply, (hpres r).1, (hpres r).2]
    refine ⟨?_, ?_, ?_⟩
    · rw [hfilter]
      have hallex : ∀ x ∈ st.rows.filter
          (fun r => r.userId == userId && r.lessonId == lessonId), x = ex := by
        intro x hx
        obtain ⟨hxmem, hxP⟩ := List.mem_filter.mp hx
        rw [Bool.and_eq_true, beq_iff_eq, beq_iff_eq] at hxP
        exact hpair x hxmem ex hmem (hxP.1.trans hP.1.symm) (hxP.2.trans hP.2.symm)
      have hexmem : ex ∈ st.rows.filter
          (fun r => r.userId == userId && r.lessonId == lessonId) :=
        List.mem_filter.mpr ⟨hmem, by simp [hP.1, hP.2]⟩
      rw [eq_singleton_of_nodup _ ex (hrows_nd.filter _) hallex hexmem]
      rfl
    · intro r' hr' hu hl
      obtain ⟨r, hr, rfl⟩ := List.mem_map.mp hr'
      have hru : r.userId = userId := ((hpres r).1).symm.trans hu
      have hrl : r.lessonId = lessonId := ((hpres r).2).symm.trans hl
      obtain rfl : r = ex := hpair r hr ex hmem (hru.trans hP.1.symm) (hrl.trans hP.2.symm)
      simp
    · intro u l hul
      rw [hfilter]
      have : ∀ r ∈ st.rows.filter (fun r => r.userId == u && r.lessonId == l),
          (if r.id = ex.id then { r with isCompleted := true, completedAt := some now }
           else r) = r := by
        intro r hr
        obtain ⟨hrmem, hrQ⟩ := List.mem_filter.mp hr
        rw [Bool.and_eq_true, beq_iff_eq, beq_iff_eq] at hrQ
        refine if_neg (fun hid => ?_)
        obtain rfl : r = ex := hinj hrmem hmem hid
        rcases hul with h | h
        · exact h (hrQ.1.symm.trans hP.1)
        · exact h (hrQ.2.symm.trans hP.2)
      exact (List.map_congr_left this).trans (List.map_id _)

theorem completeLessonEndpoint_fst (st : ProgressStore) (course : CourseRec)
    (lesson : LessonRec) (userId : String) (now : Nat) :
    (completeLessonEndpoint st course lesson userId now).1 =
      markLessonComplete st userId lesson.id lesson.courseId now := by
  unfold completeLessonEndpoint
  dsimp only
  split <;> rfl

theorem completeLessonEndpoint_snd_isCompleted (st : ProgressStore) (course : CourseRec)
    (lesson : LessonRec) (userId : String) (now : Nat) :
    (completeLessonEndpoint st course lesson userId now).2.isCompleted =
      (decide ((getCompletedLessonsCount
          (markLessonComplete st userId lesson.id lesson.courseId now) userId lesson.courseId : Int)
        ≥ totalLessonsOrZero course) || course.isCompleted) := by
  unfold completeLessonEndpoint
  dsimp only
  split
  · rename_i h
    simp [decide_eq_true h]
  · rename_i h
    simp [decide_eq_false h]

/-- Claim C10: completing a lesson upserts the (user, lesson) progress row
— exactly one row for the pair afterwards, marked completed, other pairs
untouched — and the owning course's isCompleted flag is set to true
exactly when the user's completed count (after the upsert) reaches or
exceeds totalLessons; the endpoint never resets the flag to false. -/
theorem lesson_complete_endpoint_correct (st : ProgressStore) (course : CourseRec)
    (lesson : LessonRec) (userId : String) (now : Nat)
    (hids : (st.rows.map (fun r => r.id)).Nodup)
    (hpair : ∀ r1 ∈ st.rows, ∀ r2 ∈ st.rows,
      r1.userId = r2.userId → r1.lessonId = r2.lessonId → r1 = r2) :
    (((completeLessonEndpoint st course lesson userId now).1.rows.filter
        (fun r => r.userId == userId && r.lessonId == lesson.id)).length = 1)
    ∧ (∀ r ∈ (completeLessonEndpoint st course lesson userId now).1.rows,
        r.userId = userId → r.lessonId = lesson.id → r.isCompleted = true)
    ∧ (∀ u l, u ≠ userId ∨ l ≠ lesson.id →
        (completeLessonEndpoint st course lesson userId now).1.rows.filter
            (fun r => r.userId == u && r.lessonId == l)
          = st.rows.filter (fun r => r.userId == u && r.lessonId == l))
    ∧ ((completeLessonEndpoint st course lesson userId now).2.isCompleted =
        (decide ((getCompletedLessonsCount
              (completeLessonEndpoint st course lesson userId now).1 userId lesson.courseId : Int)
            ≥ totalLessonsOrZero course) || course.isCompleted))
    ∧ (course.isCompleted = true →
        (completeLessonEndpoint st course lesson userId now).2.isCompleted = true) := by
  obtain ⟨h1, h2, h3⟩ :=
    markLessonComplete_spec st userId lesson.id lesson.courseId now hids hpair
  refine ⟨?_, ?_, ?_, ?_, ?_⟩
  · rw [completeLessonEndpoint_fst]
    exact h1
  · rw [completeLessonEndpoint_fst]
    exact h2
  · intro u l hul
    rw [completeLessonEndpoint_fst]
    exact h3 u l hul
  · rw [completeLessonEndpoint_snd_isCompleted, completeLessonEndpoint_fst]
  · intro hc
    rw [completeLessonEndpoint_snd_isCompleted, hc, Bool.or_true]

theorem lesson_complete_endpoint_correct_witness :
    ((completeLessonEndpoint { rows := [], nextId := 0 }
        { id := 1, userId := "u", title := "c", description := none, totalLessons := some 1,
          isCompleted := false, isArchived := false, createdAt := 0, updatedAt := 0 }
        { id := 1, courseId := 1, sessionNumber := 1, title := "t", subtitle := none,
          content := "x", userFeedback := none, citationMap := none, estimatedMinutes := 5,
          createdAt := 0 }
        "u" 9).1.rows.filter
      (fun r => r.userId == "u" && r.lessonId == 1)).length = 1 :=
  (lesson_complete_endpoint_correct { rows := [], nextId := 0 }
      { id := 1, userId := "u", title := "c", description := none, totalLessons := some 1,
        isCompleted := false, isArchived := false, createdAt := 0, updatedAt := 0 }
      { id := 1, courseId := 1, sessionNumber := 1, title := "t", subtitle := none,
        content := "x", userFeedback := none, citationMap := none, estimatedMinutes := 5,
        createdAt := 0 }
      "u" 9 (by simp) (by simp)).1

/-! ### The generation gate under interleaving -/

def taskAt (s : GenState) (i : Nat) : TaskCtl :=
  s.tasks.getD i { pc := 0, wrote := false }

theorem needsGeneration_sentinel : needsGeneration sentinelContent = true := rfl

theorem getD_mem_of_lt {α : Type} (l : List α) (j : Nat) (d : α) (h : j < l.length) :
    l.getD j d ∈ l := by
  induction l generalizing j with
  | nil => simp at h
  | cons a t ih =>
    cases j with
    | zero => simp
    | succ j2 =>
      simp only [List.getD_cons_succ]
      exact List.mem_cons_of_mem _ (ih j2 (by simpa using h))

theorem getD_set_self {α : Type} (l : List α) (i : Nat) (a d : α) (h : i < l.length) :
    (l.set i a).getD i d = a := by
  induction l generalizing i with
  | nil => simp at h
  | cons b t ih =>
    cases i with
    | zero => simp
    | succ i2 => simpa using ih i2 (by simpa using h)

theorem getD_set_ne {α : Type} (l : List α) (i j : Nat) (a d : α) (h : i ≠ j) :
    (l.set i a).getD j d = l.getD j d := by
  induction l generalizing i j with
  | nil => simp
  | cons b t ih =>
    cases i with
    | zero =>
      cases j with
      | zero => exact absurd rfl h
      | succ j2 => simp
    | succ i2 =>
      cases j with
      | zero => simp
      | succ j2 => simpa using ih i2 j2 (by omega)

theorem getD_default_irrel {α : Type} (l : List α) (i : Nat) (d1 d2 : α)
    (h : i < l.length) : l.getD i d1 = l.getD i d2 := by
  induction l generalizing i with
  | nil => simp at h
  | cons b t ih =>
    cases i with
    | zero => simp
    | succ i2 => simpa using ih i2 (by simpa using h)

/-- Invariant of the interleaving model: until the first write commits,
the content is still the sentinel and no task has finished; afterwards the
content is always the complete provider result of some task that wrote. -/
def GenInv (results : List String) (s : GenState) : Prop :=
  s.tasks.length = results.length ∧
  (∀ t ∈ s.tasks, t.wrote = true → t.pc = 2) ∧
  ((s.content = sentinelContent ∧ ∀ t ∈ s.tasks, t.wrote = false ∧ t.pc ≠ 2)
    ∨ (∃ i, i < results.length ∧ (taskAt s i).wrote = true ∧ s.content = results.getD i ""))

theorem getD_of_get?_some {α : Type} (l : List α) (i : Nat) (a d : α)
    (h : l.get? i = some a) : l.getD i d = a := by
  induction l generalizing i with
  | nil => simp at h
  | cons b t ih =>
    cases i with
    | zero => simpa using h
    | succ i2 => simpa using ih i2 (by simpa using h)

theorem genInv_step (results : List String) (s : GenState) (i : Nat)
    (hres : ∀ r ∈ results, needsGeneration r = false)
    (hinv : GenInv results s) : GenInv results (stepTask results s i) := by
  obtain ⟨hlen, hwp, hdisj⟩ := hinv
  unfold stepTask
  cases hget : s.tasks.get? i with
  | none => exact ⟨hlen, hwp, hdisj⟩
  | some t =>
    have hilt : i < s.tasks.length := List.get?_eq_some.mp hget |>.1
    have hmem : t ∈ s.tasks := List.get?_mem hget
    dsimp only
    cases hpc : t.pc with
    | zero =>
      rcases hdisj with ⟨hc, hall⟩ | ⟨j, hj, hw, hc⟩
      · rw [hc]
        simp only [needsGeneration_sentinel, if_true]
        refine ⟨by simpa using hlen, ?_, Or.inl ⟨rfl, ?_⟩⟩
        · intro t2 ht2 hw2
          rcases List.mem_or_eq_of_mem_set ht2 with ht2 | rfl
          · exact absurd hw2 (by rw [(hall t2 ht2).1]; decide)
          · cases hw2
        · intro t2 ht2
          rcases List.mem_or_eq_of_mem_set ht2 with ht2 | rfl
          · exact hall t2 ht2
          · exact ⟨rfl, by decide⟩
      · have hcf : needsGeneration s.content = false := by
          rw [hc]
          exact hres _ (getD_mem_of_lt results j "" hj)
        rw [hcf]
        simp only [Bool.false_eq_true, if_false]
        have hij : i ≠ j := by
          rintro rfl
          have htw : t.wrote = true := by
            have hti : taskAt s i = t :=
              getD_of_get?_some s.tasks i t _ hget
            rw [← hti]
            exact hw
          have := hwp t hmem htw
          omega
        refine ⟨by simpa using hlen, ?_, Or.inr ⟨j, hj, ?_, hc⟩⟩
        · intro t2 ht2 hw2
          rcases List.mem_or_eq_of_mem_set ht2 with ht2 | rfl
          · exact hwp t2 ht2 hw2
          · cases hw2
        · unfold taskAt
          rw [getD_set_ne s.tasks i j _ _ hij]
          exact hw
    | succ n =>
      cases n with
      | zero =>
        dsimp only
        refine ⟨by simpa using hlen, ?_, Or.inr ⟨i, by omega, ?_, ?_⟩⟩
        · intro t2 ht2 hw2
          rcases List.mem_or_eq_of_mem_set ht2 with ht2 | rfl
          · exact hwp t2 ht2 hw2
          · rfl
        · unfold taskAt
          rw [getD_set_self s.tasks i _ _ hilt]
        · exact getD_default_irrel results i s.content "" (by omega)
      | succ m => exact ⟨hlen, hwp, hdisj⟩

theorem genInv_run (results : List String) (sched : List Nat)
    (hres : ∀ r ∈ results, needsGeneration r = false) :
    GenInv results (runSchedule results sched) := by
  have hinit : GenInv results { content := sentinelContent, tasks := initTasks results.length } := by
    refine ⟨by simp [initTasks], ?_, Or.inl ⟨rfl, ?_⟩⟩
    · intro t ht hw
      rw [List.eq_of_mem_replicate ht] at hw
      cases hw
    · intro t ht
      rw [List.eq_of_mem_replicate ht]
      exact ⟨rfl, by decide⟩
  unfold runSchedule
  suffices h : ∀ s : GenState, GenInv results s →
      GenInv results (sched.foldl (stepTask results) s) from h _ hinit
  induction sched with
  | nil => exact fun s hs => hs
  | cons a rest ih => exact fun s hs => ih _ (genInv_step results s a hres hs)

/-- Claim C1 amended: each generation task re-checks the sentinel once, at
task start and hence BEFORE its provider call (not after it), skipping only
if another attempt had already committed by then; after the provider call
it writes unconditionally.  Under any interleaving in which all tasks run
to completion, the final lesson content is the complete provider result of
a single task that wrote — non-sentinel and never a mixture of attempts —
but the number of effective writes can exceed one. -/
theorem generation_gate_amended (results : List String) (sched : List Nat)
    (hres : ∀ r ∈ results, needsGeneration r = false)
    (hne : 0 < results.length)
    (hdone : allDoneB (runSchedule results sched) = true) :
    ∃ i, i < results.length ∧
      (taskAt (runSchedule results sched) i).wrote = true ∧
      (runSchedule results sched).content = results.getD i "" ∧
      needsGeneration (runSchedule results sched).content = false := by
  obtain ⟨hlen, hwp, hdisj⟩ := genInv_run results sched hres
  rcases hdisj with ⟨hc, hall⟩ | ⟨i, hi, hw, hc⟩
  · exfalso
    have hlen2 : 0 < (runSchedule results sched).tasks.length := by
      rw [hlen]
      exact hne
    obtain ⟨t, ht⟩ := List.exists_mem_of_length_pos hlen2
    have hpc2 := List.all_eq_true.mp hdone t ht
    rw [Nat.beq_eq_true_eq] at hpc2
    exact (hall t ht).2 hpc2
  · refine ⟨i, hi, hw, hc, ?_⟩
    rw [hc]
    exact hres _ (getD_mem_of_lt results i "" hi)

theorem generation_gate_amended_witness :
    needsGeneration (runSchedule ["A", "B"] [0, 0, 1, 1]).content = false :=
  (generation_gate_amended ["A", "B"] [0, 0, 1, 1] (by decide) (by decide)
    (by decide)).elim (fun i h => h.2.2.2)

/-- Claim C1 counterexample: with two concurrent triggers, the schedule
check(0), check(1), write(0), write(1) lets both tasks pass the
pre-provider sentinel check before either writes, so BOTH commit writes —
two effective writes, refuting at-most-one-effective-write; the second
write silently overwrites the first. -/
theorem generation_gate_counterexample :
    effectiveWrites (runSchedule ["A", "B"] [0, 1, 0, 1]) = 2 ∧
    allDoneB (runSchedule ["A", "B"] [0, 1, 0, 1]) = true ∧
    (runSchedule ["A", "B"] [0, 1, 0, 1]).content = "B" ∧
    needsGeneration "A" = false ∧ needsGeneration "B" = false ∧
    1 < effectiveWrites (runSchedule ["A", "B"] [0, 1, 0, 1]) :=
  ⟨by decide, by decide, by decide, by decide, by decide, by decide⟩

end Drip
